import Mathlib

/-!
# sl-go: user CRUD handlers with a cache-aside read guard

A shallow embedding of `src/main.go`: the `User` entity and its `Validate`
method, the `verifyCache` middleware and the handlers registered by
`SetupRoutes` for `POST /users`, `GET /users/:id`, `PUT /users/:id` and
`DELETE /users/:id`.

The two external stores (the Mongo collection "users" and the Redis cache) are
explicit state; every call made to either of them is appended to a call log, so
that "no store call is made" is a statement about that log.  Library routines
whose behaviour is fixed by their documentation (`primitive.ObjectIDFromHex`,
`json.Marshal` on a `User`, the ozzo-validation rules) are written out; the two
decoders (`json.Unmarshal`, `c.BodyParser`) are parameters of the environment.
-/

namespace SlGo

/-! ## The entity -/

/-- The `User` struct of `main.go`. -/
structure User where
  ID : String
  FirstName : String
  LastName : String
  Gender : String
  Age : Int
  deriving DecidableEq, Repr

/-- The zero value `User{}` (also what `var user User` declares). -/
def User.zero : User := ⟨"", "", "", "", 0⟩

/-! ## ozzo-validation rules used by `Validate` -/

/-- Rule `validation.Required` on a string: an empty string is rejected with
"cannot be blank". -/
def ruleRequired (s : String) : Option String :=
  if s = "" then some "cannot be blank" else none

/-- Rule `validation.Min(0)` on an int: an empty (zero) value is skipped,
otherwise the value must be at least the threshold. -/
def ruleMin (threshold : Int) (v : Int) : Option String :=
  if v = 0 then none
  else if threshold ≤ v then none
  else some ("must be no less than " ++ toString threshold)

/-- Rule `validation.In(elements...)` on a string: an empty value is considered
valid (the rule is skipped), otherwise the value must equal one of the
elements. -/
def ruleIn (elements : List String) (s : String) : Option String :=
  if s = "" then none
  else if elements.contains s then none
  else some "must be a valid value"

/-- One `validation.Field(&field, rule)` entry: the error (if any) is recorded
under the field's json name. -/
def fieldErrors (name : String) (r : Option String) : List (String × String) :=
  match r with
  | some msg => [(name, msg)]
  | none => []

/-- Method `User.Validate`: `validation.ValidateStruct` over the four field
rules.  The result is `none` for a nil error, otherwise the collected
`validation.Errors` (field name, message). -/
def User.Validate (user : User) : Option (List (String × String)) :=
  let errs :=
    fieldErrors "first_name" (ruleRequired user.FirstName) ++
    fieldErrors "last_name" (ruleRequired user.LastName) ++
    fieldErrors "age" (ruleMin 0 user.Age) ++
    fieldErrors "gender" (ruleIn ["male", "female", "others"] user.Gender)
  if errs.isEmpty then none else some errs

/-- The sample user validated at the start of `main`. -/
def u1 : User := ⟨"", "sam", "chan", "male", 20⟩

/-! ## Identifiers -/

/-- A Mongo `primitive.ObjectID`: twelve bytes. -/
structure ObjectID where
  bytes : List Nat
  deriving DecidableEq, Repr

/-- Value of one hexadecimal digit (`encoding/hex`), both cases accepted. -/
def fromHexChar (c : Char) : Option Nat :=
  if '0' ≤ c ∧ c ≤ '9' then some (c.toNat - '0'.toNat)
  else if 'a' ≤ c ∧ c ≤ 'f' then some (c.toNat - 'a'.toNat + 10)
  else if 'A' ≤ c ∧ c ≤ 'F' then some (c.toNat - 'A'.toNat + 10)
  else none

/-- Decoding of a hexadecimal text into bytes, two digits per byte. -/
def hexDecode : List Char → Option (List Nat)
  | [] => some []
  | [_] => none
  | a :: b :: rest =>
    match fromHexChar a, fromHexChar b, hexDecode rest with
    | some hi, some lo, some tl => some ((hi * 16 + lo) :: tl)
    | _, _, _ => none

/-- Library routine `primitive.ObjectIDFromHex`: the text must be 24 bytes long
and consist of hexadecimal digits; `none` stands for the returned error. -/
def ObjectIDFromHex (s : String) : Option ObjectID :=
  if s.utf8ByteSize ≠ 24 then none
  else (hexDecode s.data).map ObjectID.mk

/-- Lower-case hexadecimal digit. -/
def hexDigit (n : Nat) : Char :=
  if n < 10 then Char.ofNat ('0'.toNat + n) else Char.ofNat ('a'.toNat + (n - 10))

/-- Method `ObjectID.Hex`: the lower-case hexadecimal text of the bytes. -/
def ObjectID.Hex (id : ObjectID) : String :=
  String.mk (id.bytes.flatMap fun b => [hexDigit (b / 16), hexDigit (b % 16)])

/-! ## JSON encoding (`encoding/json`, as used by `json.Marshal` and `c.JSON`) -/

/-- The double-quote character. -/
def dquote : Char := Char.ofNat 34

/-- The backslash character. -/
def bslash : Char := Char.ofNat 92

/-- Escaping of one character inside a JSON string, as `json.Marshal` does it
(HTML-sensitive characters included). -/
def escapeChar (c : Char) : List Char :=
  if c = dquote ∨ c = bslash then [bslash, c]
  else if c = '\n' then [bslash, 'n']
  else if c = '\r' then [bslash, 'r']
  else if c = '\t' then [bslash, 't']
  else if c.toNat < 32 ∨ c = '<' ∨ c = '>' ∨ c = '&' then
    [bslash, 'u', '0', '0', hexDigit (c.toNat / 16), hexDigit (c.toNat % 16)]
  else if c.toNat = 8232 ∨ c.toNat = 8233 then
    [bslash, 'u', '2', '0', '2', hexDigit (c.toNat % 16)]
  else [c]

/-- A Go string as a JSON string literal. -/
def jsonString (s : String) : String :=
  String.mk ([dquote] ++ s.data.flatMap escapeChar ++ [dquote])

/-- One `"key":value` member of a JSON object. -/
def jsonField (key value : String) : String :=
  String.mk [dquote] ++ key ++ String.mk [dquote] ++ ":" ++ value

/-- A JSON object with the given members. -/
def jsonObject (fields : List String) : String :=
  "\x7b" ++ ",".intercalate fields ++ "\x7d"

/-- Call `json.Marshal(user)`: the field `ID` has no json tag and keeps its Go
name, the others use their tags. -/
def jsonMarshal (user : User) : String :=
  jsonObject
    [ jsonField "ID" (jsonString user.ID),
      jsonField "first_name" (jsonString user.FirstName),
      jsonField "last_name" (jsonString user.LastName),
      jsonField "gender" (jsonString user.Gender),
      jsonField "age" (toString user.Age) ]

/-- Encoding of `fiber.Map{"Cached": user}`. -/
def jsonMarshalCached (user : User) : String :=
  jsonObject [jsonField "Cached" (jsonMarshal user)]

/-! ## The two external stores -/

/-- The `_id` of a stored document: generated by the driver (an `ObjectID`) or,
when the inserted `User` carried a non-empty `ID`, that string. -/
inductive DocID where
  | oid (id : ObjectID)
  | str (s : String)
  deriving DecidableEq, Repr

/-- A document of the collection "users".  A `User` has no bson tags except on
`ID`, so the keys are the lower-cased Go field names. -/
structure Doc where
  docID : DocID
  firstname : String
  lastname : String
  gender : String
  age : Int
  deriving DecidableEq, Repr

/-- An entry of the Redis cache: key, payload, time-to-live in nanoseconds
(a `time.Duration`). -/
structure CacheEntry where
  key : String
  val : String
  ttl : Nat
  deriving DecidableEq, Repr

/-- State of the two stores. -/
structure World where
  store : List Doc
  cache : List CacheEntry
  deriving DecidableEq, Repr

/-- Constant `time.Second`, in nanoseconds. -/
def second : Nat := 1000000000

/-- A call made to one of the stores. -/
inductive Call where
  | cacheGet (key : String)
  | cacheSet (key : String) (val : String) (ttl : Nat)
  | findOne (id : ObjectID)
  | insertOne (user : User)
  | updateOne (id : ObjectID) (user : User)
  | deleteOne (id : ObjectID)
  deriving DecidableEq, Repr

/-- Whether a call goes to the Record Store (the Mongo collection). -/
def Call.isStore : Call → Bool
  | .findOne _ => true
  | .insertOne _ => true
  | .updateOne _ _ => true
  | .deleteOne _ => true
  | _ => false

/-- Whether a call writes the Cache Store. -/
def Call.isCacheWrite : Call → Bool
  | .cacheSet _ _ _ => true
  | _ => false

/-- Which store calls of the request fail for a reason of their own
(connection loss and the like).  Each handler makes each kind of call at most
once. -/
structure Faults where
  cacheGet : Bool
  cacheSet : Bool
  findOne : Bool
  insertOne : Bool
  updateOne : Bool
  deleteOne : Bool
  deriving DecidableEq, Repr

/-- No store call fails. -/
def noFaults : Faults := ⟨false, false, false, false, false, false⟩

/-- What the handlers take from outside this file.  A decoder returns the
value left in its target (which started as `User{}`) and whether it returned an
error. -/
structure Env where
  /-- Call `json.Unmarshal(val, &user)` on a cached payload. -/
  jsonUnmarshal : String → User × Bool
  /-- Call `c.BodyParser(&user)`, from the Content-Type and the body. -/
  bodyParser : String → String → User × Bool
  /-- The identifier the driver generates for an inserted document. -/
  newObjectID : ObjectID
  faults : Faults

/-! ## The request context (`*fiber.Ctx`) -/

/-- The part of a request the handlers read. -/
structure Request where
  params : String
  contentType : String
  body : String
  deriving DecidableEq, Repr

/-- The response under construction. -/
structure Response where
  status : Nat
  body : String
  deriving DecidableEq, Repr

/-- The error value a handler returns. -/
inductive HandlerError where
  | validation (errs : List (String × String))
  | cacheErr
  deriving DecidableEq, Repr

/-- A request context together with the stores it reaches and the log of the
calls made to them. -/
structure Ctx where
  req : Request
  resp : Response
  world : World
  calls : List Call
  deriving DecidableEq, Repr

/-- A fresh context: status 200, empty body, no call made yet. -/
def Ctx.new (req : Request) (w : World) : Ctx :=
  ⟨req, ⟨200, ""⟩, w, []⟩

/-- Method `c.Params("id")`. -/
def Ctx.Params (c : Ctx) : String := c.req.params

/-- Method `c.Status(code)`. -/
def Ctx.Status (c : Ctx) (code : Nat) : Ctx :=
  { c with resp := { c.resp with status := code } }

/-- Method `c.SendString(s)`; it returns a nil error. -/
def Ctx.SendString (c : Ctx) (s : String) : Ctx :=
  { c with resp := { c.resp with body := s } }

/-- Method `c.JSON(data)`, given the encoding of `data`; it returns a nil error. -/
def Ctx.JSON (c : Ctx) (encoded : String) : Ctx :=
  { c with resp := { c.resp with body := encoded } }

/-- Appends a call to the log. -/
def Ctx.log (c : Ctx) (call : Call) : Ctx :=
  { c with calls := c.calls ++ [call] }

/-! ## Store calls -/

/-- First cache entry under a key. -/
def lookupCache (cache : List CacheEntry) (key : String) : Option String :=
  (cache.find? fun e => e.key = key).map CacheEntry.val

/-- Call `cache.Get(ctx, id).Bytes()`: `none` stands for a non-nil error (the
key is absent, or the call itself failed). -/
def cacheGet (env : Env) (c : Ctx) (key : String) : Ctx × Option String :=
  let c := c.log (.cacheGet key)
  if env.faults.cacheGet then (c, none) else (c, lookupCache c.world.cache key)

/-- Call `cache.Set(ctx, key, val, ttl).Err()`: the boolean tells whether the
error is non-nil.  A successful call replaces the entry under the key. -/
def cacheSet (env : Env) (c : Ctx) (key val : String) (ttl : Nat) : Ctx × Bool :=
  let c := c.log (.cacheSet key val ttl)
  if env.faults.cacheSet then (c, true)
  else
    ({ c with world := { c.world with
        cache := ⟨key, val, ttl⟩ :: c.world.cache.filter fun e => e.key ≠ key } }, false)

/-- Decoding of a stored document into a `User`: an `ObjectID` is read into the
string field `ID` as its hexadecimal text. -/
def Doc.decode (d : Doc) : User :=
  { ID := match d.docID with
          | .oid id => id.Hex
          | .str s => s
    FirstName := d.firstname
    LastName := d.lastname
    Gender := d.gender
    Age := d.age }

/-- Call `Collection("users").FindOne(ctx, bson.M{"_id": id}).Decode(&user)`:
`none` stands for a non-nil error (no document matches, or the call failed). -/
def findOne (env : Env) (c : Ctx) (id : ObjectID) : Ctx × Option User :=
  let c := c.log (.findOne id)
  if env.faults.findOne then (c, none)
  else (c, (c.world.store.find? fun d => d.docID = .oid id).map Doc.decode)

/-- The `_id` an inserted `User` gets: `ID` is `omitempty`, so an empty `ID` is
left out and the driver generates an `ObjectID`. -/
def insertedID (env : Env) (user : User) : DocID :=
  if user.ID = "" then .oid env.newObjectID else .str user.ID

/-- Call `Collection("users").InsertOne(ctx, user)`: `none` stands for a non-nil
error (a duplicate `_id`, or the call failed), otherwise the `InsertedID`. -/
def insertOne (env : Env) (c : Ctx) (user : User) : Ctx × Option DocID :=
  let c := c.log (.insertOne user)
  let newID := insertedID env user
  if env.faults.insertOne ∨ c.world.store.any (fun d => d.docID = newID) then (c, none)
  else
    ({ c with world := { c.world with
        store := c.world.store ++
          [⟨newID, user.FirstName, user.LastName, user.Gender, user.Age⟩] } }, some newID)

/-- What `UpdateOne` reports: `MatchedCount` and `ModifiedCount`. -/
structure UpdateResult where
  MatchedCount : Nat
  ModifiedCount : Nat
  deriving DecidableEq, Repr

/-- The fields of the first document with the given `_id` replaced by those of
`user` (the `$set` of all four fields). -/
def setFields (id : ObjectID) (user : User) : List Doc → List Doc
  | [] => []
  | d :: ds =>
    if d.docID = .oid id then
      ⟨d.docID, user.FirstName, user.LastName, user.Gender, user.Age⟩ :: ds
    else d :: setFields id user ds

/-- Call `Collection("users").UpdateOne(ctx, bson.M{"_id": id}, bson.M{"$set": user})`:
`none` stands for a non-nil error (the call failed, or the `$set` carries a
string `_id` for a matched document, whose `_id` is immutable). -/
def updateOne (env : Env) (c : Ctx) (id : ObjectID) (user : User) :
    Ctx × Option UpdateResult :=
  let c := c.log (.updateOne id user)
  if env.faults.updateOne then (c, none)
  else
    match c.world.store.find? fun d => d.docID = .oid id with
    | none => (c, some ⟨0, 0⟩)
    | some d =>
      if user.ID ≠ "" then (c, none)
      else
        let store := setFields id user c.world.store
        ({ c with world := { c.world with store := store } },
          some ⟨1, if d.decode = { user with ID := id.Hex } then 0 else 1⟩)

/-- The first document with the given `_id` removed. -/
def removeFirst (id : ObjectID) : List Doc → List Doc
  | [] => []
  | d :: ds => if d.docID = .oid id then ds else d :: removeFirst id ds

/-- Call `Collection("users").DeleteOne(ctx, bson.M{"_id": id})`: `none` stands
for a non-nil error, otherwise the `DeletedCount`. -/
def deleteOne (env : Env) (c : Ctx) (id : ObjectID) : Ctx × Option Nat :=
  let c := c.log (.deleteOne id)
  if env.faults.deleteOne then (c, none)
  else
    let n := if c.world.store.any (fun d => d.docID = .oid id) then 1 else 0
    ({ c with world := { c.world with store := removeFirst id c.world.store } }, some n)

/-- JSON encoding of an `*mongo.InsertOneResult`. -/
def jsonInsertOneResult (id : DocID) : String :=
  jsonObject [jsonField "InsertedID" (jsonString (match id with
    | .oid o => o.Hex
    | .str s => s))]

/-- JSON encoding of an `*mongo.UpdateResult` (nothing is upserted). -/
def jsonUpdateResult (r : UpdateResult) : String :=
  jsonObject
    [ jsonField "MatchedCount" (toString r.MatchedCount),
      jsonField "ModifiedCount" (toString r.ModifiedCount),
      jsonField "UpsertedCount" "0",
      jsonField "UpsertedID" "null" ]

/-- JSON encoding of an `*mongo.DeleteResult`. -/
def jsonDeleteResult (n : Nat) : String :=
  jsonObject [jsonField "DeletedCount" (toString n)]

/-! ## The handlers of `main.go` -/

/-- A fiber handler: the context it leaves and the error it returns. -/
abbrev Handler := Ctx → Ctx × Option HandlerError

/-- Middleware `verifyCache`; `next` is the rest of the route (`c.Next()`).
When the payload does not decode, `c.Next()` is called without `return`, so
control goes on to the final `c.JSON`. -/
def verifyCache (env : Env) (next : Handler) (c : Ctx) : Ctx × Option HandlerError :=
  let id := c.Params
  match cacheGet env c id with
  | (c, none) => next c
  | (c, some val) =>
    let (user, err) := env.jsonUnmarshal val
    let c := if err then (next c).1 else c
    (c.JSON (jsonMarshalCached user), none)

/-- The handler of `POST /users`.  A body-parsing error sets the response but
does not return. -/
def postUsers (env : Env) (c : Ctx) : Ctx × Option HandlerError :=
  let (user, parseErr) := env.bodyParser c.req.contentType c.req.body
  let c := if parseErr then (c.Status 400).SendString "Error parsing body" else c
  match user.Validate with
  | some errs => ((c.Status 400).SendString "Invalid user data", some (.validation errs))
  | none =>
    match insertOne env c user with
    | (c, none) => ((c.Status 500).SendString "Error inserting user", none)
    | (c, some res) => ((c.Status 201).JSON (jsonInsertOneResult res), none)

/-- The final handler of `GET /users/:id`.  `json.Marshal` cannot fail on a
`User` (strings and an int), so the `panic(err)` branch is never taken. -/
def getUser (env : Env) (c : Ctx) : Ctx × Option HandlerError :=
  let params := c.Params
  match ObjectIDFromHex params with
  | none => ((c.Status 500).SendString "Error parsing id", none)
  | some id =>
    match findOne env c id with
    | (c, none) => ((c.Status 500).SendString "Error finding user", none)
    | (c, some user) =>
      let val := jsonMarshal user
      match cacheSet env c params val (30 * second) with
      | (c, true) => (c, some .cacheErr)
      | (c, false) => (c.JSON (jsonMarshal user), none)

/-- The handler of `PUT /users/:id`. -/
def putUser (env : Env) (c : Ctx) : Ctx × Option HandlerError :=
  let params := c.Params
  match ObjectIDFromHex params with
  | none => ((c.Status 500).SendString "Error parsing id", none)
  | some id =>
    let (user, parseErr) := env.bodyParser c.req.contentType c.req.body
    if parseErr then ((c.Status 400).SendString "Error parsing body", none)
    else
      match updateOne env c id user with
      | (c, none) => ((c.Status 500).SendString "Error updating user", none)
      | (c, some res) => (c.JSON (jsonUpdateResult res), none)

/-- The handler of `DELETE /users/:id`. -/
def deleteUser (env : Env) (c : Ctx) : Ctx × Option HandlerError :=
  let params := c.Params
  match ObjectIDFromHex params with
  | none => ((c.Status 500).SendString "Error parsing id", none)
  | some id =>
    match deleteOne env c id with
    | (c, none) => ((c.Status 500).SendString "Error deleting user", none)
    | (c, some res) => (c.JSON (jsonDeleteResult res), none)

/-- The route `GET /users/:id`: `verifyCache` in front of the final handler.
This is the operation the specification calls GetWithCache. -/
def GetWithCache (env : Env) (c : Ctx) : Ctx × Option HandlerError :=
  verifyCache env (getUser env) c

/-! ## Fixtures: the record of `main_test.go` and two decoders for it -/

/-- The identifier of the existing user in `TestUsersRoute`. -/
def kenID : String := "62cb8c67311878d3a15f1389"

/-- The bytes of `kenID`. -/
def kenOID : ObjectID := ⟨[98, 203, 140, 103, 49, 24, 120, 211, 161, 95, 19, 137]⟩

/-- The stored document of that user. -/
def kenDoc : Doc := ⟨.oid kenOID, "ken", "lam", "male", 2⟩

/-- That user as the handlers decode it. -/
def ken : User := ⟨kenID, "ken", "lam", "male", 2⟩

/-- A cached payload cut off after its first byte. -/
def truncatedPayload : String := "\x7b"

/-- A decoder that agrees with `json.Unmarshal` on the payloads used below: the
encoding of `ken` decodes to `ken`; `truncatedPayload` is a syntax error, which
leaves the target at `User{}`. -/
def kenUnmarshal (val : String) : User × Bool :=
  if val = jsonMarshal ken then (ken, false) else (User.zero, true)

/-- A JSON body whose `age` is a string: decoding it into a `User` fills the
three string fields, skips `age` and returns a type error. -/
def ageAsStringBody : String :=
  jsonObject
    [ jsonField "first_name" (jsonString "sam"),
      jsonField "last_name" (jsonString "chan"),
      jsonField "gender" (jsonString "male"),
      jsonField "age" (jsonString "20") ]

/-- A JSON body with an empty first name; it decodes without error. -/
def emptyFirstNameBody : String :=
  jsonObject
    [ jsonField "first_name" (jsonString ""),
      jsonField "last_name" (jsonString "chan"),
      jsonField "gender" (jsonString "male"),
      jsonField "age" "20" ]

/-- A body parser that agrees with `c.BodyParser` on the two bodies above (sent
as `application/json`); anything else is reported as unparseable. -/
def sampleBodyParser (contentType body : String) : User × Bool :=
  if contentType = "application/json" ∧ body = ageAsStringBody then
    (⟨"", "sam", "chan", "male", 0⟩, true)
  else if contentType = "application/json" ∧ body = emptyFirstNameBody then
    (⟨"", "", "chan", "male", 20⟩, false)
  else (User.zero, true)

/-- An environment for the fixtures, with no failing store call. -/
def sampleEnv : Env :=
  { jsonUnmarshal := kenUnmarshal
    bodyParser := sampleBodyParser
    newObjectID := ⟨[98, 203, 140, 103, 49, 24, 120, 211, 161, 95, 19, 138]⟩
    faults := noFaults }

/-- A `GET`/`DELETE` request for an identifier (no body). -/
def requestFor (id : String) : Request := ⟨id, "", ""⟩

/-- The stores holding the test user, with an empty cache. -/
def kenWorld : World := ⟨[kenDoc], []⟩

/-- The stores holding the test user, its encoding cached under its identifier. -/
def kenCachedWorld : World := ⟨[kenDoc], [⟨kenID, jsonMarshal ken, 30 * second⟩]⟩

/-- The stores holding the test user, a truncated payload cached under its
identifier. -/
def kenCorruptWorld : World := ⟨[kenDoc], [⟨kenID, truncatedPayload, 30 * second⟩]⟩

/-! ## Validation -/

theorem fieldErrors_eq_nil (name : String) (r : Option String) :
    fieldErrors name r = [] ↔ r = none := by
  cases r <;> simp [fieldErrors]

theorem ruleRequired_eq_none (s : String) : ruleRequired s = none ↔ s ≠ "" := by
  unfold ruleRequired
  split <;> simp_all

theorem ruleMin_zero_eq_none (v : Int) : ruleMin 0 v = none ↔ 0 ≤ v := by
  unfold ruleMin
  split
  · simp_all
  · split <;> simp_all

theorem ruleIn_eq_none (elements : List String) (s : String) :
    ruleIn elements s = none ↔ s = "" ∨ s ∈ elements := by
  unfold ruleIn
  split
  · simp_all
  · split <;> simp_all

/-- Validate accepts exactly the users all four rules accept. -/
theorem Validate_eq_none (u : User) :
    u.Validate = none ↔
      u.FirstName ≠ "" ∧ u.LastName ≠ "" ∧ 0 ≤ u.Age ∧
        (u.Gender = "" ∨ u.Gender ∈ ["male", "female", "others"]) := by
  unfold User.Validate
  simp only [List.isEmpty_iff, ite_eq_left_iff, reduceCtorEq, imp_false, not_not,
    List.append_eq_nil, fieldErrors_eq_nil, ruleRequired_eq_none, ruleMin_zero_eq_none,
    ruleIn_eq_none]
  tauto

/-- The collected errors name `gender` exactly when the `In` rule rejects it. -/
theorem gender_error_iff (u : User) :
    (∃ msg, ("gender", msg) ∈ (u.Validate).getD []) ↔
      ruleIn ["male", "female", "others"] u.Gender ≠ none := by
  unfold User.Validate
  cases h1 : ruleRequired u.FirstName <;> cases h2 : ruleRequired u.LastName <;>
    cases h3 : ruleMin 0 u.Age <;> cases h4 : ruleIn ["male", "female", "others"] u.Gender <;>
    simp [fieldErrors]

/-- C5 (as amended): `User.Validate` returns no error exactly when `FirstName`
and `LastName` are non-empty, `Age` is at least 0, and `Gender` is either empty
or one of "male", "female", "others".  In particular every user whose `Gender`
is non-empty and none of those three values is rejected, and the sample user of
`main` is accepted. -/
theorem C5_validate_decides_rules :
    (∀ u : User, u.Validate = none ↔
      u.FirstName ≠ "" ∧ u.LastName ≠ "" ∧ 0 ≤ u.Age ∧
        (u.Gender = "" ∨ u.Gender = "male" ∨ u.Gender = "female" ∨ u.Gender = "others")) ∧
    (∀ u : User, ¬ (u.Gender = "" ∨ u.Gender = "male" ∨ u.Gender = "female" ∨
      u.Gender = "others") ↔ ∃ msg, ("gender", msg) ∈ (u.Validate).getD []) ∧
    u1.Validate = none := by
  refine ⟨fun u => ?_, fun u => ?_, by decide⟩
  · rw [Validate_eq_none]
    simp
  · have hin := ruleIn_eq_none ["male", "female", "others"] u.Gender
    simp only [List.mem_cons, List.mem_singleton, List.not_mem_nil, or_false] at hin
    rw [← hin]
    exact (gender_error_iff u).symm

/-- C5 (counterexample): a user with an empty `Gender`, which is none of the
three enumerated values, passes `Validate`. -/
theorem C5_empty_gender_accepted :
    (User.mk "" "sam" "chan" "" 20).Validate = none ∧
      (User.mk "" "sam" "chan" "" 20).Gender ∉ ["male", "female", "others"] := by
  decide

/-! ## The read path -/

/-- On a hit whose payload decodes, `verifyCache` never runs the rest of the
route, whatever that is. -/
theorem verifyCache_hit (env : Env) (next : Handler) (c : Ctx) (val : String) (user : User)
    (hget : env.faults.cacheGet = false)
    (hhit : lookupCache c.world.cache c.Params = some val)
    (hdec : env.jsonUnmarshal val = (user, false)) :
    verifyCache env next c =
      (((c.log (.cacheGet c.Params)).JSON (jsonMarshalCached user)), none) := by
  simp [verifyCache, cacheGet, hget, Ctx.log, hhit, hdec]

/-- On a miss, `verifyCache` is the rest of the route run after the lookup. -/
theorem verifyCache_miss (env : Env) (next : Handler) (c : Ctx)
    (hmiss : lookupCache c.world.cache c.Params = none) :
    verifyCache env next c = next (c.log (.cacheGet c.Params)) := by
  unfold verifyCache cacheGet
  split <;> simp_all [Ctx.log]

/-- The final `GET` handler on a malformed identifier. -/
theorem getUser_malformed (env : Env) (c : Ctx) (hid : ObjectIDFromHex c.Params = none) :
    getUser env c = ((c.Status 500).SendString "Error parsing id", none) := by
  simp [getUser, hid]

/-- The final `GET` handler when the lookup returns an error. -/
theorem getUser_not_found (env : Env) (c : Ctx) (id : ObjectID)
    (hid : ObjectIDFromHex c.Params = some id)
    (hfail : env.faults.findOne = true ∨
      (c.world.store.find? fun d => d.docID = .oid id) = none) :
    getUser env c =
      (((c.log (.findOne id)).Status 500).SendString "Error finding user", none) := by
  unfold getUser findOne
  rcases hfail with h | h <;> simp [hid, h, Ctx.log]

/-- The final `GET` handler when the record is found and the cache write
succeeds. -/
theorem getUser_found (env : Env) (c : Ctx) (id : ObjectID) (d : Doc)
    (hid : ObjectIDFromHex c.Params = some id)
    (hfind : env.faults.findOne = false)
    (hdoc : (c.world.store.find? fun d => d.docID = .oid id) = some d)
    (hset : env.faults.cacheSet = false) :
    getUser env c =
      ({ c with
          resp := { c.resp with body := jsonMarshal d.decode }
          world := { c.world with
            cache := ⟨c.Params, jsonMarshal d.decode, 30 * second⟩ ::
              c.world.cache.filter fun e => e.key ≠ c.Params }
          calls := c.calls ++
            [.findOne id, .cacheSet c.Params (jsonMarshal d.decode) (30 * second)] },
        none) := by
  simp [getUser, findOne, cacheSet, hid, hfind, hdoc, hset, Ctx.log, Ctx.JSON]

/-- GetWithCache on a hit whose payload decodes. -/
theorem GetWithCache_hit (env : Env) (req : Request) (w : World) (val : String) (user : User)
    (hget : env.faults.cacheGet = false)
    (hhit : lookupCache w.cache req.params = some val)
    (hdec : env.jsonUnmarshal val = (user, false)) :
    GetWithCache env (Ctx.new req w) =
      (⟨req, ⟨200, jsonMarshalCached user⟩, w, [.cacheGet req.params]⟩, none) := by
  unfold GetWithCache
  rw [verifyCache_hit env _ _ val user hget hhit hdec]
  rfl

/-- GetWithCache on a miss for a stored record, when no call fails. -/
theorem GetWithCache_miss_found (env : Env) (req : Request) (w : World)
    (id : ObjectID) (d : Doc)
    (hid : ObjectIDFromHex req.params = some id)
    (hmiss : lookupCache w.cache req.params = none)
    (hfind : env.faults.findOne = false)
    (hdoc : (w.store.find? fun d => d.docID = .oid id) = some d)
    (hset : env.faults.cacheSet = false) :
    GetWithCache env (Ctx.new req w) =
      (⟨req, ⟨200, jsonMarshal d.decode⟩,
        ⟨w.store, ⟨req.params, jsonMarshal d.decode, 30 * second⟩ ::
          w.cache.filter fun e => e.key ≠ req.params⟩,
        [.cacheGet req.params, .findOne id,
          .cacheSet req.params (jsonMarshal d.decode) (30 * second)]⟩, none) := by
  have h := getUser_found env ((Ctx.new req w).log (.cacheGet req.params)) id d hid hfind hdoc hset
  unfold GetWithCache
  rw [verifyCache_miss env _ _ hmiss]
  erw [h]
  simp [Ctx.log, Ctx.new, Ctx.Params]

/-- C1: on a cache hit whose payload decodes as a record, GetWithCache answers
with the cached record (as the value of "Cached"), returns no error, leaves both
stores as they were, and its only call is the cache lookup: no Record Store call
and no cache write. -/
theorem C1_cache_hit_short_circuits (env : Env) (req : Request) (w : World)
    (val : String) (user : User)
    (hget : env.faults.cacheGet = false)
    (hhit : lookupCache w.cache req.params = some val)
    (hdec : env.jsonUnmarshal val = (user, false)) :
    GetWithCache env (Ctx.new req w) =
        (⟨req, ⟨200, jsonMarshalCached user⟩, w, [.cacheGet req.params]⟩, none) ∧
      (GetWithCache env (Ctx.new req w)).1.calls.any Call.isStore = false ∧
      (GetWithCache env (Ctx.new req w)).1.calls.any Call.isCacheWrite = false := by
  rw [GetWithCache_hit env req w val user hget hhit hdec]
  exact ⟨rfl, rfl, rfl⟩

/-- C1 at the test record: its encoding is cached under its identifier. -/
theorem C1_cache_hit_short_circuits_witness :
    GetWithCache sampleEnv (Ctx.new (requestFor kenID) kenCachedWorld) =
        (⟨requestFor kenID, ⟨200, jsonMarshalCached ken⟩, kenCachedWorld,
          [.cacheGet kenID]⟩, none) ∧
      (GetWithCache sampleEnv (Ctx.new (requestFor kenID) kenCachedWorld)).1.calls.any
        Call.isStore = false ∧
      (GetWithCache sampleEnv (Ctx.new (requestFor kenID) kenCachedWorld)).1.calls.any
        Call.isCacheWrite = false :=
  C1_cache_hit_short_circuits sampleEnv (requestFor kenID) kenCachedWorld (jsonMarshal ken) ken
    (by decide) (by decide) (by decide)

/-- C3: for a well-formed identifier with no cache entry whose record is in the
Record Store, when the lookup and the cache write succeed, GetWithCache returns
no error and answers 200 with the JSON encoding of the record; after the cache
lookup it makes one `findOne` and exactly one cache write, whose key is the
identifier string of the request, whose payload is that same encoding and whose
time-to-live is 30 seconds; the Record Store is unchanged and the cache holds
the new entry. -/
theorem C3_missed_read_populates_cache (env : Env) (req : Request) (w : World)
    (id : ObjectID) (d : Doc)
    (hid : ObjectIDFromHex req.params = some id)
    (hmiss : lookupCache w.cache req.params = none)
    (hfind : env.faults.findOne = false)
    (hdoc : (w.store.find? fun d => d.docID = .oid id) = some d)
    (hset : env.faults.cacheSet = false) :
    (GetWithCache env (Ctx.new req w)).2 = none ∧
      (GetWithCache env (Ctx.new req w)).1.resp = ⟨200, jsonMarshal d.decode⟩ ∧
      (GetWithCache env (Ctx.new req w)).1.calls =
        [.cacheGet req.params, .findOne id,
          .cacheSet req.params (jsonMarshal d.decode) (30 * second)] ∧
      (GetWithCache env (Ctx.new req w)).1.calls.filter Call.isCacheWrite =
        [.cacheSet req.params (jsonMarshal d.decode) (30 * second)] ∧
      (GetWithCache env (Ctx.new req w)).1.world.store = w.store ∧
      (GetWithCache env (Ctx.new req w)).1.world.cache =
        ⟨req.params, jsonMarshal d.decode, 30 * second⟩ ::
          w.cache.filter fun e => e.key ≠ req.params := by
  rw [GetWithCache_miss_found env req w id d hid hmiss hfind hdoc hset]
  simp [List.filter, Call.isCacheWrite]

/-- C3 at the test record, with an empty cache. -/
theorem C3_missed_read_populates_cache_witness :
    (GetWithCache sampleEnv (Ctx.new (requestFor kenID) kenWorld)).2 = none ∧
      (GetWithCache sampleEnv (Ctx.new (requestFor kenID) kenWorld)).1.resp =
        ⟨200, jsonMarshal kenDoc.decode⟩ ∧
      (GetWithCache sampleEnv (Ctx.new (requestFor kenID) kenWorld)).1.calls =
        [.cacheGet kenID, .findOne kenOID,
          .cacheSet kenID (jsonMarshal kenDoc.decode) (30 * second)] ∧
      (GetWithCache sampleEnv (Ctx.new (requestFor kenID) kenWorld)).1.calls.filter
          Call.isCacheWrite =
        [.cacheSet kenID (jsonMarshal kenDoc.decode) (30 * second)] ∧
      (GetWithCache sampleEnv (Ctx.new (requestFor kenID) kenWorld)).1.world.store =
        kenWorld.store ∧
      (GetWithCache sampleEnv (Ctx.new (requestFor kenID) kenWorld)).1.world.cache =
        ⟨kenID, jsonMarshal kenDoc.decode, 30 * second⟩ ::
          kenWorld.cache.filter fun e => e.key ≠ kenID :=
  C3_missed_read_populates_cache sampleEnv (requestFor kenID) kenWorld kenOID kenDoc
    (by decide) (by decide) (by decide) (by decide) (by decide)

/-- C4: with no cache entry for the identifier, a malformed identifier is
answered 500 "Error parsing id" and an identifier whose lookup returns an error
(no such record, or a failing call) is answered 500 "Error finding user"; in
both cases no cache write is made and both stores are left unchanged. -/
theorem C4_failed_read_writes_no_cache (env : Env) (req : Request) (w : World)
    (hmiss : lookupCache w.cache req.params = none) :
    (ObjectIDFromHex req.params = none →
      GetWithCache env (Ctx.new req w) =
        (⟨req, ⟨500, "Error parsing id"⟩, w, [.cacheGet req.params]⟩, none)) ∧
    (∀ id : ObjectID, ObjectIDFromHex req.params = some id →
      (env.faults.findOne = true ∨ (w.store.find? fun d => d.docID = .oid id) = none) →
      GetWithCache env (Ctx.new req w) =
        (⟨req, ⟨500, "Error finding user"⟩, w, [.cacheGet req.params, .findOne id]⟩,
          none)) := by
  constructor
  · intro hid
    unfold GetWithCache
    rw [verifyCache_miss env _ _ hmiss]
    exact getUser_malformed env ((Ctx.new req w).log (.cacheGet req.params)) hid
  · intro id hid hfail
    unfold GetWithCache
    rw [verifyCache_miss env _ _ hmiss]
    exact getUser_not_found env ((Ctx.new req w).log (.cacheGet req.params)) id hid hfail

/-- C4 at a malformed identifier and at the absent user of `main_test.go`. -/
theorem C4_failed_read_writes_no_cache_witness :
    GetWithCache sampleEnv (Ctx.new (requestFor "not-a-valid-id-format") kenWorld) =
        (⟨requestFor "not-a-valid-id-format", ⟨500, "Error parsing id"⟩, kenWorld,
          [.cacheGet "not-a-valid-id-format"]⟩, none) ∧
      GetWithCache sampleEnv (Ctx.new (requestFor "62cb8c67311878d3a15f1388") kenWorld) =
        (⟨requestFor "62cb8c67311878d3a15f1388", ⟨500, "Error finding user"⟩, kenWorld,
          [.cacheGet "62cb8c67311878d3a15f1388",
            .findOne ⟨[98, 203, 140, 103, 49, 24, 120, 211, 161, 95, 19, 136]⟩]⟩, none) :=
  ⟨(C4_failed_read_writes_no_cache sampleEnv (requestFor "not-a-valid-id-format") kenWorld
      (by decide)).1 (by decide),
   (C4_failed_read_writes_no_cache sampleEnv (requestFor "62cb8c67311878d3a15f1388") kenWorld
      (by decide)).2 _ (by decide) (Or.inr (by decide))⟩

/-! ## Malformed identifiers -/

/-- C7: for an identifier that `ObjectIDFromHex` rejects, the handlers of Get
(behind the cache guard), Update and Delete each answer 500 "Error parsing id",
return no error value, make no call at all to either store and leave the stores
unchanged, whatever the body and the state. -/
theorem C7_malformed_id_reaches_no_store (env : Env) (req : Request) (w : World)
    (hid : ObjectIDFromHex req.params = none) :
    getUser env (Ctx.new req w) = (⟨req, ⟨500, "Error parsing id"⟩, w, []⟩, none) ∧
    putUser env (Ctx.new req w) = (⟨req, ⟨500, "Error parsing id"⟩, w, []⟩, none) ∧
    deleteUser env (Ctx.new req w) = (⟨req, ⟨500, "Error parsing id"⟩, w, []⟩, none) := by
  refine ⟨?_, ?_, ?_⟩
  · rw [getUser_malformed env (Ctx.new req w) hid]; rfl
  · simp only [putUser, Ctx.Params, Ctx.new, hid]; rfl
  · simp only [deleteUser, Ctx.Params, Ctx.new, hid]; rfl

/-- C7 at the identifier "not-a-valid-id-format", with a body that would parse. -/
theorem C7_malformed_id_reaches_no_store_witness :
    getUser sampleEnv
        (Ctx.new ⟨"not-a-valid-id-format", "application/json", emptyFirstNameBody⟩ kenWorld) =
      (⟨⟨"not-a-valid-id-format", "application/json", emptyFirstNameBody⟩,
        ⟨500, "Error parsing id"⟩, kenWorld, []⟩, none) ∧
    putUser sampleEnv
        (Ctx.new ⟨"not-a-valid-id-format", "application/json", emptyFirstNameBody⟩ kenWorld) =
      (⟨⟨"not-a-valid-id-format", "application/json", emptyFirstNameBody⟩,
        ⟨500, "Error parsing id"⟩, kenWorld, []⟩, none) ∧
    deleteUser sampleEnv
        (Ctx.new ⟨"not-a-valid-id-format", "application/json", emptyFirstNameBody⟩ kenWorld) =
      (⟨⟨"not-a-valid-id-format", "application/json", emptyFirstNameBody⟩,
        ⟨500, "Error parsing id"⟩, kenWorld, []⟩, none) :=
  C7_malformed_id_reaches_no_store sampleEnv
    ⟨"not-a-valid-id-format", "application/json", emptyFirstNameBody⟩ kenWorld (by decide)

/-! ## A cached payload that does not decode -/

/-- C2 (the code evaluated): the test record is stored and a
truncated payload is cached under its identifier.  With no cache entry the
answer is the encoding of the record; with the truncated entry the same lookup
and cache write are made, but the answer is overwritten by the zero user under
"Cached". -/
theorem C2_corrupt_entry_not_treated_as_miss :
    (GetWithCache sampleEnv (Ctx.new (requestFor kenID) kenWorld)).1.resp =
        ⟨200, jsonMarshal ken⟩ ∧
      (GetWithCache sampleEnv (Ctx.new (requestFor kenID) kenCorruptWorld)).1.resp =
        ⟨200, jsonMarshalCached User.zero⟩ ∧
      (GetWithCache sampleEnv (Ctx.new (requestFor kenID) kenCorruptWorld)).1.resp ≠
        (GetWithCache sampleEnv (Ctx.new (requestFor kenID) kenWorld)).1.resp ∧
      (GetWithCache sampleEnv (Ctx.new (requestFor kenID) kenCorruptWorld)).1.calls =
        (GetWithCache sampleEnv (Ctx.new (requestFor kenID) kenWorld)).1.calls ∧
      (GetWithCache sampleEnv (Ctx.new (requestFor kenID) kenCorruptWorld)).1.world =
        (GetWithCache sampleEnv (Ctx.new (requestFor kenID) kenWorld)).1.world := by
  decide

/-! ## Create -/

/-- C6 (the code evaluated): a JSON body whose `age` is a string
makes `BodyParser` return an error, yet the partly filled user passes
`Validate`, `InsertOne` is called and the answer is 201 with the new
identifier. -/
theorem C6_insert_after_body_parse_error :
    (sampleEnv.bodyParser "application/json" ageAsStringBody).2 = true ∧
      (postUsers sampleEnv (Ctx.new ⟨"", "application/json", ageAsStringBody⟩ kenWorld)).1.calls =
        [.insertOne ⟨"", "sam", "chan", "male", 0⟩] ∧
      (postUsers sampleEnv (Ctx.new ⟨"", "application/json", ageAsStringBody⟩ kenWorld)).1.resp =
        ⟨201, jsonInsertOneResult (.oid sampleEnv.newObjectID)⟩ ∧
      (postUsers sampleEnv (Ctx.new ⟨"", "application/json", ageAsStringBody⟩ kenWorld)).2 =
        none ∧
      (postUsers sampleEnv
          (Ctx.new ⟨"", "application/json", ageAsStringBody⟩ kenWorld)).1.world.store =
        [kenDoc, ⟨.oid sampleEnv.newObjectID, "sam", "chan", "male", 0⟩] := by
  decide

/-! ## Two consecutive reads -/

/-- The "Cached" wrapper adds eleven characters to the encoding it wraps. -/
theorem jsonMarshalCached_length (u : User) :
    (jsonMarshalCached u).length = (jsonMarshal u).length + 11 := by
  simp only [jsonMarshalCached, jsonObject, jsonField, String.intercalate,
    String.intercalate.go, String.length_append]
  have h1 : ("\x7b" : String).length = 1 := by decide
  have h2 : ("\x7d" : String).length = 1 := by decide
  have h3 : (String.mk [dquote]).length = 1 := by decide
  have h4 : ("Cached" : String).length = 6 := by decide
  have h5 : (":" : String).length = 1 := by decide
  omega

/-- The wrapped encoding is never the encoding itself. -/
theorem jsonMarshalCached_ne (u : User) : jsonMarshalCached u ≠ jsonMarshal u := by
  intro h
  have := jsonMarshalCached_length u
  rw [h] at this
  omega

/-- The cache lookup finds the entry a successful `cacheSet` has just written. -/
theorem lookupCache_cons_self (key val : String) (ttl : Nat) (rest : List CacheEntry) :
    lookupCache (⟨key, val, ttl⟩ :: rest) key = some val := by
  simp [lookupCache]

/-- C8 (as amended): for a well-formed identifier of an existing record with no
cache entry, and no failing call, the first GetWithCache answers 200 with the
JSON encoding of the record and the second one, when the cached payload decodes
back to the record, is a hit that calls only the cache lookup and answers 200
with that same encoding wrapped as the value of "Cached"; the two payloads carry
the same record but are not bit-identical. -/
theorem C8_second_read_wraps_first_payload (env : Env) (req : Request) (w : World)
    (id : ObjectID) (d : Doc)
    (hid : ObjectIDFromHex req.params = some id)
    (hmiss : lookupCache w.cache req.params = none)
    (hget : env.faults.cacheGet = false)
    (hfind : env.faults.findOne = false)
    (hdoc : (w.store.find? fun d => d.docID = .oid id) = some d)
    (hset : env.faults.cacheSet = false)
    (hround : env.jsonUnmarshal (jsonMarshal d.decode) = (d.decode, false)) :
    (GetWithCache env (Ctx.new req w)).1.resp = ⟨200, jsonMarshal d.decode⟩ ∧
      GetWithCache env (Ctx.new req (GetWithCache env (Ctx.new req w)).1.world) =
        (⟨req, ⟨200, jsonObject [jsonField "Cached" (jsonMarshal d.decode)]⟩,
          (GetWithCache env (Ctx.new req w)).1.world, [.cacheGet req.params]⟩, none) ∧
      (GetWithCache env (Ctx.new req (GetWithCache env (Ctx.new req w)).1.world)).1.resp.body ≠
        (GetWithCache env (Ctx.new req w)).1.resp.body := by
  have h1 := GetWithCache_miss_found env req w id d hid hmiss hfind hdoc hset
  have hhit : lookupCache (GetWithCache env (Ctx.new req w)).1.world.cache req.params =
      some (jsonMarshal d.decode) := by
    rw [h1]
    exact lookupCache_cons_self _ _ _ _
  have h2 := GetWithCache_hit env req _ _ _ hget hhit hround
  refine ⟨by rw [h1], h2, ?_⟩
  rw [h2, h1]
  exact jsonMarshalCached_ne d.decode

/-- C8 (as amended) at the test record. -/
theorem C8_second_read_wraps_first_payload_witness :
    (GetWithCache sampleEnv (Ctx.new (requestFor kenID) kenWorld)).1.resp =
        ⟨200, jsonMarshal kenDoc.decode⟩ ∧
      GetWithCache sampleEnv (Ctx.new (requestFor kenID)
          (GetWithCache sampleEnv (Ctx.new (requestFor kenID) kenWorld)).1.world) =
        (⟨requestFor kenID, ⟨200, jsonObject [jsonField "Cached" (jsonMarshal kenDoc.decode)]⟩,
          (GetWithCache sampleEnv (Ctx.new (requestFor kenID) kenWorld)).1.world,
          [.cacheGet kenID]⟩, none) ∧
      (GetWithCache sampleEnv (Ctx.new (requestFor kenID)
          (GetWithCache sampleEnv (Ctx.new (requestFor kenID) kenWorld)).1.world)).1.resp.body ≠
        (GetWithCache sampleEnv (Ctx.new (requestFor kenID) kenWorld)).1.resp.body :=
  C8_second_read_wraps_first_payload sampleEnv (requestFor kenID) kenWorld kenOID kenDoc
    (by decide) (by decide) (by decide) (by decide) (by decide) (by decide) (by decide)

/-- C8 (counterexample): for the test record, starting from an empty cache, the
first call is a miss that populates the cache, the second a hit, and the two
response payloads differ. -/
theorem C8_payloads_not_bit_identical :
    ObjectIDFromHex kenID = some kenOID ∧
      lookupCache kenWorld.cache kenID = none ∧
      (GetWithCache sampleEnv (Ctx.new (requestFor kenID) kenWorld)).1.calls =
        [.cacheGet kenID, .findOne kenOID, .cacheSet kenID (jsonMarshal ken) (30 * second)] ∧
      (GetWithCache sampleEnv (Ctx.new (requestFor kenID)
          (GetWithCache sampleEnv (Ctx.new (requestFor kenID) kenWorld)).1.world)).1.calls =
        [.cacheGet kenID] ∧
      (GetWithCache sampleEnv (Ctx.new (requestFor kenID) kenWorld)).1.resp.body =
        jsonMarshal ken ∧
      (GetWithCache sampleEnv (Ctx.new (requestFor kenID)
          (GetWithCache sampleEnv (Ctx.new (requestFor kenID) kenWorld)).1.world)).1.resp.body =
        jsonMarshalCached ken ∧
      jsonMarshalCached ken ≠ jsonMarshal ken := by
  decide

/-! ## The write handlers -/

/-- What `insertOne` leaves apart from the Record Store. -/
theorem insertOne_frame (env : Env) (c : Ctx) (user : User) :
    (insertOne env c user).1.world.cache = c.world.cache ∧
      (insertOne env c user).1.calls = c.calls ++ [.insertOne user] := by
  unfold insertOne
  simp only [Ctx.log]
  split_ifs <;> exact ⟨rfl, rfl⟩

/-- What `updateOne` leaves apart from the Record Store. -/
theorem updateOne_frame (env : Env) (c : Ctx) (id : ObjectID) (user : User) :
    (updateOne env c id user).1.world.cache = c.world.cache ∧
      (updateOne env c id user).1.calls = c.calls ++ [.updateOne id user] := by
  unfold updateOne
  simp only [Ctx.log]
  by_cases hf : env.faults.updateOne = true
  · rw [if_pos hf]
    exact ⟨rfl, rfl⟩
  · rw [if_neg hf]
    cases (c.world.store.find? fun d => d.docID = .oid id) with
    | none => exact ⟨rfl, rfl⟩
    | some d =>
      by_cases hu : user.ID ≠ ""
      · simp [if_pos hu]
      · simp [if_neg hu]

/-- What `deleteOne` leaves apart from the Record Store. -/
theorem deleteOne_frame (env : Env) (c : Ctx) (id : ObjectID) :
    (deleteOne env c id).1.world.cache = c.world.cache ∧
      (deleteOne env c id).1.calls = c.calls ++ [.deleteOne id] := by
  unfold deleteOne
  simp only [Ctx.log]
  split_ifs <;> exact ⟨rfl, rfl⟩

/-- Create leaves the cache alone; it makes no call, or the one `insertOne`,
and that only with fields `Validate` accepts. -/
theorem postUsers_frame (env : Env) (c : Ctx) :
    (postUsers env c).1.world.cache = c.world.cache ∧
      ((postUsers env c).1.calls = c.calls ∨
        ∃ user, user.Validate = none ∧
          (postUsers env c).1.calls = c.calls ++ [.insertOne user]) := by
  unfold postUsers
  rcases env.bodyParser c.req.contentType c.req.body with ⟨user, perr⟩
  simp only
  cases hv : user.Validate with
  | some errs => cases perr <;> exact ⟨rfl, Or.inl rfl⟩
  | none =>
    simp only
    cases perr
    · obtain ⟨h1, h2⟩ := insertOne_frame env c user
      simp only [Bool.false_eq_true, ↓reduceIte]
      rcases hi : insertOne env c user with ⟨c2, r⟩
      rw [hi] at h1 h2
      cases r <;> exact ⟨h1, Or.inr ⟨user, hv, h2⟩⟩
    · obtain ⟨h1, h2⟩ :=
        insertOne_frame env ((c.Status 400).SendString "Error parsing body") user
      simp only [↓reduceIte]
      rcases hi : insertOne env ((c.Status 400).SendString "Error parsing body") user
        with ⟨c2, r⟩
      rw [hi] at h1 h2
      cases r <;> exact ⟨h1, Or.inr ⟨user, hv, h2⟩⟩

/-- Update leaves the cache alone; it makes no call or the one `updateOne`. -/
theorem putUser_frame (env : Env) (c : Ctx) :
    (putUser env c).1.world.cache = c.world.cache ∧
      ((putUser env c).1.calls = c.calls ∨
        ∃ id user, (putUser env c).1.calls = c.calls ++ [.updateOne id user]) := by
  cases hid : ObjectIDFromHex c.Params with
  | none =>
    simp only [putUser, hid]
    exact ⟨rfl, Or.inl rfl⟩
  | some id =>
    simp only [putUser, hid]
    by_cases hp : (env.bodyParser c.req.contentType c.req.body).2 = true
    · rw [if_pos hp]
      exact ⟨rfl, Or.inl rfl⟩
    · rw [if_neg hp]
      obtain ⟨h1, h2⟩ :=
        updateOne_frame env c id (env.bodyParser c.req.contentType c.req.body).1
      rcases hu : updateOne env c id (env.bodyParser c.req.contentType c.req.body).1
        with ⟨c2, r⟩
      rw [hu] at h1 h2
      cases r <;> exact ⟨h1, Or.inr ⟨id, _, h2⟩⟩

/-- Delete leaves the cache alone; it makes no call or the one `deleteOne`. -/
theorem deleteUser_frame (env : Env) (c : Ctx) :
    (deleteUser env c).1.world.cache = c.world.cache ∧
      ((deleteUser env c).1.calls = c.calls ∨
        ∃ id, (deleteUser env c).1.calls = c.calls ++ [.deleteOne id]) := by
  cases hid : ObjectIDFromHex c.Params with
  | none =>
    simp only [deleteUser, hid]
    exact ⟨rfl, Or.inl rfl⟩
  | some id =>
    simp only [deleteUser, hid]
    obtain ⟨h1, h2⟩ := deleteOne_frame env c id
    rcases hd : deleteOne env c id with ⟨c2, r⟩
    rw [hd] at h1 h2
    cases r <;> exact ⟨h1, Or.inr ⟨id, h2⟩⟩

/-- With no matching document, `setFields` changes nothing. -/
theorem setFields_of_find_none (id : ObjectID) (user : User) (store : List Doc)
    (h : (store.find? fun d => d.docID = .oid id) = none) : setFields id user store = store := by
  induction store with
  | nil => rfl
  | cons d ds ih =>
    by_cases hd : d.docID = .oid id
    · simp [List.find?, hd] at h
    · have h2 : (ds.find? fun d => d.docID = .oid id) = none := by
        simpa [List.find?, hd] using h
      simp [setFields, hd, ih h2]

/-- Update with a well-formed identifier and a body that parses: `updateOne` is
the one call made, with the parsed fields. -/
theorem putUser_calls (env : Env) (c : Ctx) (id : ObjectID) (user : User)
    (hid : ObjectIDFromHex c.Params = some id)
    (hparse : env.bodyParser c.req.contentType c.req.body = (user, false)) :
    (putUser env c).1.calls = c.calls ++ [.updateOne id user] := by
  simp only [putUser, hid, hparse, Bool.false_eq_true, ↓reduceIte]
  obtain ⟨-, h2⟩ := updateOne_frame env c id user
  rcases hu : updateOne env c id user with ⟨c2, r⟩
  rw [hu] at h2
  cases r <;> exact h2

/-- Update with a well-formed identifier and a body that parses, when the call
succeeds: the fields of the matching document are replaced by the parsed ones. -/
theorem putUser_store (env : Env) (c : Ctx) (id : ObjectID) (user : User)
    (hid : ObjectIDFromHex c.Params = some id)
    (hparse : env.bodyParser c.req.contentType c.req.body = (user, false))
    (hup : env.faults.updateOne = false) (hnoid : user.ID = "") :
    (putUser env c).1.world.store = setFields id user c.world.store := by
  simp only [putUser, hid, hparse, Bool.false_eq_true, ↓reduceIte, updateOne, hup, Ctx.log]
  cases hf : (c.world.store.find? fun d => d.docID = .oid id) with
  | none =>
    simp only [Ctx.JSON]
    exact (setFields_of_find_none id user _ hf).symm
  | some d => simp [hnoid, Ctx.JSON]

/-- C9: Create, Update and Delete leave the Cache Store unchanged for every
input and state and call nothing but the Record Store; hence, when an
identifier has a cache entry that decodes, a GetWithCache issued right after any
of them answers with the cached record under "Cached", exactly as it does
before the write. -/
theorem C9_writes_never_touch_cache (env : Env) (req : Request) (w : World) :
    ((postUsers env (Ctx.new req w)).1.world.cache = w.cache ∧
      (putUser env (Ctx.new req w)).1.world.cache = w.cache ∧
      (deleteUser env (Ctx.new req w)).1.world.cache = w.cache) ∧
    (∀ call ∈ (postUsers env (Ctx.new req w)).1.calls ++
        (putUser env (Ctx.new req w)).1.calls ++ (deleteUser env (Ctx.new req w)).1.calls,
      call.isStore = true) ∧
    (∀ (envR : Env) (rd : Request) (val : String) (user : User),
      envR.faults.cacheGet = false →
      lookupCache w.cache rd.params = some val →
      envR.jsonUnmarshal val = (user, false) →
      (GetWithCache envR (Ctx.new rd w)).1.resp = ⟨200, jsonMarshalCached user⟩ ∧
      (GetWithCache envR (Ctx.new rd (postUsers env (Ctx.new req w)).1.world)).1.resp =
        ⟨200, jsonMarshalCached user⟩ ∧
      (GetWithCache envR (Ctx.new rd (putUser env (Ctx.new req w)).1.world)).1.resp =
        ⟨200, jsonMarshalCached user⟩ ∧
      (GetWithCache envR (Ctx.new rd (deleteUser env (Ctx.new req w)).1.world)).1.resp =
        ⟨200, jsonMarshalCached user⟩) := by
  obtain ⟨hpc, hpl⟩ := postUsers_frame env (Ctx.new req w)
  obtain ⟨huc, hul⟩ := putUser_frame env (Ctx.new req w)
  obtain ⟨hdc, hdl⟩ := deleteUser_frame env (Ctx.new req w)
  refine ⟨⟨hpc, huc, hdc⟩, ?_, ?_⟩
  · intro call hcall
    simp only [List.mem_append] at hcall
    rcases hcall with (h | h) | h
    · rcases hpl with h0 | ⟨u, -, h0⟩ <;> rw [h0] at h <;> simp [Ctx.new] at h
      subst h; rfl
    · rcases hul with h0 | ⟨i, u, h0⟩ <;> rw [h0] at h <;> simp [Ctx.new] at h
      subst h; rfl
    · rcases hdl with h0 | ⟨i, h0⟩ <;> rw [h0] at h <;> simp [Ctx.new] at h
      subst h; rfl
  · intro envR rd val user hget hhit hdec
    refine ⟨?_, ?_, ?_, ?_⟩
    · rw [GetWithCache_hit envR rd w val user hget hhit hdec]
    · rw [GetWithCache_hit envR rd _ val user hget (by rw [hpc]; exact hhit) hdec]
    · rw [GetWithCache_hit envR rd _ val user hget (by rw [huc]; exact hhit) hdec]
    · rw [GetWithCache_hit envR rd _ val user hget (by rw [hdc]; exact hhit) hdec]

/-- C9 at the test record, cached, then updated with other fields: the read
that follows still answers with the cached record. -/
theorem C9_writes_never_touch_cache_witness :
    (GetWithCache sampleEnv (Ctx.new (requestFor kenID) kenCachedWorld)).1.resp =
        ⟨200, jsonMarshalCached ken⟩ ∧
      (GetWithCache sampleEnv (Ctx.new (requestFor kenID)
          (postUsers sampleEnv (Ctx.new ⟨kenID, "application/json", emptyFirstNameBody⟩
            kenCachedWorld)).1.world)).1.resp = ⟨200, jsonMarshalCached ken⟩ ∧
      (GetWithCache sampleEnv (Ctx.new (requestFor kenID)
          (putUser sampleEnv (Ctx.new ⟨kenID, "application/json", emptyFirstNameBody⟩
            kenCachedWorld)).1.world)).1.resp = ⟨200, jsonMarshalCached ken⟩ ∧
      (GetWithCache sampleEnv (Ctx.new (requestFor kenID)
          (deleteUser sampleEnv (Ctx.new ⟨kenID, "application/json", emptyFirstNameBody⟩
            kenCachedWorld)).1.world)).1.resp = ⟨200, jsonMarshalCached ken⟩ :=
  (C9_writes_never_touch_cache sampleEnv ⟨kenID, "application/json", emptyFirstNameBody⟩
    kenCachedWorld).2.2 sampleEnv (requestFor kenID) (jsonMarshal ken) ken
    (by decide) (by decide) (by decide)

/-- Create attempts `insertOne` only with fields that `Validate` accepts, for
every request and state. -/
theorem postUsers_inserts_only_valid (env : Env) (req : Request) (w : World) (u : User)
    (hu : Call.insertOne u ∈ (postUsers env (Ctx.new req w)).1.calls) :
    u.Validate = none := by
  rcases (postUsers_frame env (Ctx.new req w)).2 with h0 | ⟨u2, hv, h0⟩ <;>
    rw [h0] at hu <;> simp [Ctx.new] at hu
  subst hu
  exact hv

/-- C10 (the code evaluated): an Update of the test record whose body carries an
empty first name.  `Validate` rejects these fields and Create, given the same
body, answers 400 "Invalid user data" without calling the Record Store; Update
never calls `Validate`: it calls `updateOne` with them, answers 200 and leaves
the record with the empty first name in the store. -/
theorem C10_invalid_fields_reach_store :
    ObjectIDFromHex kenID = some kenOID ∧
      sampleEnv.bodyParser "application/json" emptyFirstNameBody =
        (⟨"", "", "chan", "male", 20⟩, false) ∧
      (User.mk "" "" "chan" "male" 20).Validate = some [("first_name", "cannot be blank")] ∧
      (postUsers sampleEnv
          (Ctx.new ⟨"", "application/json", emptyFirstNameBody⟩ kenWorld)).1 =
        ⟨⟨"", "application/json", emptyFirstNameBody⟩, ⟨400, "Invalid user data"⟩,
          kenWorld, []⟩ ∧
      (putUser sampleEnv
          (Ctx.new ⟨kenID, "application/json", emptyFirstNameBody⟩ kenWorld)).1.calls =
        [.updateOne kenOID ⟨"", "", "chan", "male", 20⟩] ∧
      (putUser sampleEnv
          (Ctx.new ⟨kenID, "application/json", emptyFirstNameBody⟩ kenWorld)).1.resp =
        ⟨200, jsonUpdateResult ⟨1, 1⟩⟩ ∧
      (putUser sampleEnv
          (Ctx.new ⟨kenID, "application/json", emptyFirstNameBody⟩ kenWorld)).1.world.store =
        [⟨.oid kenOID, "", "chan", "male", 20⟩] := by
  decide

end SlGo
